import Mathlib

/-!
Verification development for the economic-indices ETL pipeline
(`src/app/main.py`).  The Python functions are shallowly embedded as
executable Lean definitions: pandas data frames become lists of rows,
the BigQuery warehouse becomes an explicit list of dataset identifiers,
the SQL transforms become pure functions over lists of typed rows, and
fallible operations return `Except`.
-/

namespace Pipeline

/-! ### Character and string helpers

Models of the ASCII character classes used by `sanitize_column_names`
(the regex `[^a-zA-Z0-9_]+`) and of Python's `str.lower()` restricted to
ASCII (the only characters the pipeline feeds to it). -/

/-- Membership in the regex class `[a-zA-Z0-9_]` (ASCII word character). -/
def isWordChar (c : Char) : Bool :=
  (48 ≤ c.toNat && c.toNat ≤ 57) ||
  (65 ≤ c.toNat && c.toNat ≤ 90) ||
  (97 ≤ c.toNat && c.toNat ≤ 122) ||
  c.toNat = 95

/-- ASCII lower-casing of one character, as Python's `str.lower` acts on
the basic latin range: `A`..`Z` maps to `a`..`z`, all else unchanged. -/
def lowerChar (c : Char) : Char :=
  if 65 ≤ c.toNat ∧ c.toNat ≤ 90 then Char.ofNat (c.toNat + 32) else c

/-- String-level lower-casing, modelling Python's `str.lower()`. -/
def strLower (s : String) : String :=
  String.mk (s.toList.map lowerChar)

/-- Core of `re.sub(r"[^a-zA-Z0-9_]+", "_", s)`: word characters are
kept, and every maximal run of non-word characters is replaced by a
single underscore.  The flag records whether the previous character was
part of a non-word run whose underscore was already emitted. -/
def collapseRuns : Bool → List Char → List Char
  | _, [] => []
  | inRun, c :: cs =>
    if isWordChar c then c :: collapseRuns false cs
    else if inRun then collapseRuns true cs
    else Char.ofNat 95 :: collapseRuns true cs

/-- Sanitization of one column name, from
`re.sub(r"[^a-zA-Z0-9_]+", "_", col).lower()` in `sanitize_column_names`. -/
def sanitizeCol (s : String) : String :=
  String.mk ((collapseRuns false s.toList).map lowerChar)

/-- Embedding of `sanitize_column_names`, which rewrites every column
name of the data frame. -/
def sanitize_column_names (cols : List String) : List String :=
  cols.map sanitizeCol

/-- Helper for substring search: does the first list occur at the head
of the second? -/
def headMatches : List Char → List Char → Bool
  | [], _ => true
  | _ :: _, [] => false
  | a :: as, b :: bs => a == b && headMatches as bs

/-- Helper for substring search: does the first list occur anywhere in
the second? -/
def hasSeg (needle : List Char) : List Char → Bool
  | [] => headMatches needle []
  | c :: rest => headMatches needle (c :: rest) || hasSeg needle rest

/-- Embedding of Python's `needle in hay` substring test. -/
def strContains (hay needle : String) : Bool :=
  hasSeg needle.toList hay.toList

/-- Embedding of Python's `s.endswith(post)` as a reversed prefix
match. -/
def strEndsWith (s post : String) : Bool :=
  headMatches post.toList.reverse s.toList.reverse

/-! ### Download Watcher

Embedding of `wait_for_file_download`.  Real time is abstracted into a
trace: `before` is the snapshot `set(os.listdir(folder))` taken before
the click, and `polls` is the finite list of successive
`os.listdir(folder)` results observed inside the timeout window (the
loop body runs once per element; an empty list means the timeout
elapsed before the first poll found anything). -/

/-- Message of the `TimeoutError` raised by `wait_for_file_download`. -/
def timeoutMsg : String := "Timeout waiting for file download."

/-- Embedding of the polling loop of `wait_for_file_download`: at each
poll, the new files (present now, absent in the snapshot) are scanned
and the first one ending in `.xlsx` is returned as `os.path.join(folder,
file)`; when the polls are exhausted the timeout error is raised. -/
def wait_for_file_download (folder : String) (before : List String) :
    List (List String) → Except String String
  | [] => .error timeoutMsg
  | filesAfter :: rest =>
    match (filesAfter.filter (fun f => !before.contains f)).find?
        (fun f => strEndsWith f ".xlsx") with
    | some f => .ok (folder ++ "/" ++ f)
    | none => wait_for_file_download folder before rest

/-! ### Tabular Normalizer

Embedding of `process_excel_file`.  The Excel workbook is a list of
named sheets, each sheet a list of rows of cell strings; `pd.read_excel`
with `header=0`, `skiprows=k`, `nrows=n` drops `k` leading rows, takes
the next row as header and at most `n` further rows as data.  The UTC
capture instant is passed in as the string `ts`. -/

/-- Workbook: association list from sheet name to rows of cells. -/
def Workbook := List (String × List (List String))

/-- Rectangular result data frame: column names plus data rows. -/
structure Frame where
  cols : List String
  rows : List (List String)
  deriving DecidableEq, Repr

/-- Embedding of the `skiprows = 1 if "icc" in table_id.lower() else 0`
line of `process_excel_file`. -/
def skiprowsFor (table_id : String) : Nat :=
  if strContains (strLower table_id) "icc" then 1 else 0

/-- Embedding of `process_excel_file`: looks up the sheet, skips the
per-index extra rows, reads the header row and at most `num_rows` data
rows, fails when the column count of the sheet differs from the length
of the supplied column list (pandas raises on `df.columns = columns`),
sanitizes the supplied column names and appends the `load_timestamp`
column. -/
def process_excel_file (wb : Workbook) (table_id sheet_name : String)
    (columns : List String) (num_rows : Nat) (ts : String) :
    Except String Frame :=
  match List.lookup sheet_name wb with
  | none => .error "Worksheet not found"
  | some sheetRows =>
    match sheetRows.drop (skiprowsFor table_id) with
    | [] => .error "No header row"
    | header :: dataRows =>
      if header.length = columns.length then
        .ok { cols := sanitize_column_names columns ++ ["load_timestamp"],
              rows := (dataRows.take num_rows).map (fun r => r ++ [ts]) }
      else .error "Length mismatch between columns and data"

/-! ### Layer Provisioner

Embedding of `create_bigquery_dataset` and `create_trusted_dataset`.
The warehouse is the list of existing dataset identifiers;
`client.get_dataset` raises `NotFound` exactly when the identifier is
absent, and `client.create_dataset(..., exists_ok=True)` inserts it.
The Boolean result records whether a creation was performed.  In this
model no other failure cause exists, so the functions are total. -/

/-- Project constant `PROJECT_ID` from the source. -/
def PROJECT_ID : String := "ps-eng-dados-ds3x-448302"

/-- Embedding of `client.get_dataset`: `NotFound` when absent. -/
def get_dataset (st : List String) (dataset_id : String) :
    Except Unit Unit :=
  if st.contains dataset_id then .ok () else .error ()

/-- Embedding of `client.create_dataset(dataset, exists_ok=True)`. -/
def create_dataset (st : List String) (dataset_id : String) :
    List String :=
  if st.contains dataset_id then st else dataset_id :: st

/-- Embedding of `create_bigquery_dataset`: look the dataset up; on
`NotFound` create it.  Returns the new warehouse state and whether the
creation branch ran. -/
def create_bigquery_dataset (st : List String) (dataset_id : String) :
    List String × Bool :=
  match get_dataset st dataset_id with
  | .ok _ => (st, false)
  | .error _ => (create_dataset st dataset_id, true)

/-- Embedding of `create_trusted_dataset`: identical logic after
prefixing the dataset name with the project identifier. -/
def create_trusted_dataset (st : List String) (dataset_name : String) :
    List String × Bool :=
  match get_dataset st (PROJECT_ID ++ "." ++ dataset_name) with
  | .ok _ => (st, false)
  | .error _ =>
    (create_dataset st (PROJECT_ID ++ "." ++ dataset_name), true)

/-! ### Trusted Transformer

Embedding of the column expressions of `transform_icc_data`.  The raw
table is all-string (possibly NULL) by construction; GoogleSQL
`CAST(x AS FLOAT64)` parses a numeric literal, accepts the `NaN` and
infinity spellings case-insensitively, and raises a runtime error on any
other string — it is not `SAFE_CAST`, which would yield NULL instead. -/

/-- FLOAT64 values relevant to the transform: NaN, signed infinity, or
a finite number (modelled exactly as a rational). -/
inductive SqlF
  | nan
  | inf (neg : Bool)
  | num (q : ℚ)
  deriving DecidableEq

/-- Numeric value of a digit string. -/
def natOfDigits (l : List Char) : Nat :=
  l.foldl (fun a c => a * 10 + (c.toNat - 48)) 0

/-- Model of the strings accepted by `CAST(x AS FLOAT64)`: the NaN and
infinity spellings (case-insensitive), or an optionally signed decimal
literal with optional fraction and exponent. -/
def parseNum (s : String) : Option SqlF :=
  let l := (strLower s).toList
  if l = "nan".toList then some .nan
  else
    let signed :=
      match l with
      | '+' :: r => (false, r)
      | '-' :: r => (true, r)
      | r => (false, r)
    let neg := signed.1
    let rest := signed.2
    if rest = "inf".toList ∨ rest = "infinity".toList then
      some (.inf neg)
    else
      let ip := rest.takeWhile Char.isDigit
      let rest1 := rest.dropWhile Char.isDigit
      let fracPart :=
        match rest1 with
        | '.' :: r => (r.takeWhile Char.isDigit, r.dropWhile Char.isDigit)
        | r => ([], r)
      let fp := fracPart.1
      let rest2 := fracPart.2
      if ip = [] ∧ fp = [] then none
      else
        let mantissa : ℚ :=
          (natOfDigits ip : ℚ) + (natOfDigits fp : ℚ) / (10 : ℚ) ^ fp.length
        match rest2 with
        | [] => some (.num (if neg then -mantissa else mantissa))
        | 'e' :: r =>
          let esigned :=
            match r with
            | '+' :: r2 => (false, r2)
            | '-' :: r2 => (true, r2)
            | r2 => (false, r2)
          let ed := esigned.2.takeWhile Char.isDigit
          let rest3 := esigned.2.dropWhile Char.isDigit
          if ed = [] ∨ rest3 ≠ [] then none
          else
            let scaled : ℚ :=
              if esigned.1 then mantissa / (10 : ℚ) ^ natOfDigits ed
              else mantissa * (10 : ℚ) ^ natOfDigits ed
            some (.num (if neg then -scaled else scaled))
        | _ => none

/-- Error message of a failed FLOAT64 cast. -/
def castErrMsg : String := "Bad double value"

/-- Embedding of `CAST(x AS FLOAT64)` over a nullable string cell: NULL
passes through, a parseable string yields its value, anything else
aborts the query. -/
def castFloat (x : Option String) : Except String (Option SqlF) :=
  match x with
  | none => .ok none
  | some s =>
    match parseNum s with
    | some f => .ok (some f)
    | none => .error castErrMsg

/-- Embedding of `IS_NAN` on a FLOAT64 value. -/
def isNanF : SqlF → Bool
  | .nan => true
  | _ => false

/-- Embedding of `IS_NAN` over a nullable value (NULL in, NULL out). -/
def sqlIsNan (v : Option SqlF) : Option Bool :=
  v.map isNanF

/-- Embedding of GoogleSQL `IF(cond, t, e)`: the then-branch is taken
exactly when the condition is TRUE (a NULL condition takes the else
branch). -/
def sqlIf (c : Option Bool) (t e : Option SqlF) : Option SqlF :=
  if c = some true then t else e

/-- Embedding of `IFNULL(a, b)`. -/
def sqlIfNull (a : Option SqlF) (b : SqlF) : SqlF :=
  a.getD b

/-- Embedding of the full default-on-invalid column expression
`IFNULL(IF(IS_NAN(CAST(x AS FLOAT64)), 0, CAST(x AS FLOAT64)), 0)`,
applied to the already-cast value. -/
def zeroExpr (v : Option SqlF) : SqlF :=
  sqlIfNull (sqlIf (sqlIsNan v) (some (.num 0)) v) (.num 0)

/-- Split of a character list on the dash separator. -/
def splitOnDash : List Char → List (List Char)
  | [] => [[]]
  | c :: rest =>
    if c = '-' then [] :: splitOnDash rest
    else
      match splitOnDash rest with
      | [] => [[c]]
      | g :: gs => (c :: g) :: gs

/-- Model of `CAST(s AS DATE)` input acceptance: `YYYY-MM-DD` with a
valid month and day. -/
def parseDate (s : String) : Option (Nat × Nat × Nat) :=
  match splitOnDash s.toList with
  | [y, m, d] =>
    if y.all Char.isDigit ∧ y.length = 4 ∧
        m.all Char.isDigit ∧ m.length = 2 ∧
        d.all Char.isDigit ∧ d.length = 2 ∧
        1 ≤ natOfDigits m ∧ natOfDigits m ≤ 12 ∧
        1 ≤ natOfDigits d ∧ natOfDigits d ≤ 31 then
      some (natOfDigits y, natOfDigits m, natOfDigits d)
    else none
  | _ => none

/-- Typed cell value of a trusted table. -/
inductive TVal
  | null
  | fv (f : SqlF)
  | dv (d : Nat × Nat × Nat)
  | tsv (s : String)
  deriving DecidableEq

/-- Column-level rule kinds appearing in the `transform_icc_data`
query: plain `CAST(.. AS DATE)`, plain `CAST(.. AS FLOAT64)`, the
`IFNULL(IF(IS_NAN(..), 0, ..), 0)` default-on-invalid wrapper, and the
`CAST(.. AS TIMESTAMP)` of the pipeline-produced timestamp column. -/
inductive Rule
  | castDate
  | castFloat64
  | zeroOnInvalid
  | castTimestamp
  deriving DecidableEq

/-- Evaluation of one column rule on one nullable source cell.  The
timestamp cast is modelled as accepting, since its input is produced by
the pipeline itself. -/
def applyRule : Rule → Option String → Except String TVal
  | .castDate, none => .ok .null
  | .castDate, some s =>
    match parseDate s with
    | some d => .ok (.dv d)
    | none => .error "Invalid date"
  | .castFloat64, x =>
    (castFloat x).map (fun v =>
      match v with
      | none => .null
      | some f => .fv f)
  | .zeroOnInvalid, x => (castFloat x).map (fun v => .fv (zeroExpr v))
  | .castTimestamp, none => .ok .null
  | .castTimestamp, some s => .ok (.tsv s)

/-- Column list of the `transform_icc_data` query with the rule each
select expression applies, in query order. -/
def iccRuleSet : List (String × Rule) :=
  [("mes", .castDate),
   ("icc", .castFloat64),
   ("icc_ate_10_sm", .castFloat64),
   ("icc_mais_de_10_sm", .castFloat64),
   ("icc_homens", .zeroOnInvalid),
   ("icc_mulheres", .zeroOnInvalid),
   ("icc_ate_35_anos", .zeroOnInvalid),
   ("icc_mais_de_35_anos", .zeroOnInvalid),
   ("icea", .castFloat64),
   ("icea_ate_10_sm", .castFloat64),
   ("icea_mais_de_10_sm", .castFloat64),
   ("icea_homens", .zeroOnInvalid),
   ("icea_mulheres", .zeroOnInvalid),
   ("icea_ate_35_anos", .zeroOnInvalid),
   ("icea_mais_de_35_anos", .zeroOnInvalid),
   ("iec", .castFloat64),
   ("iec_ate_10_sm", .castFloat64),
   ("iec_mais_de_10_sm", .castFloat64),
   ("iec_homens", .zeroOnInvalid),
   ("iec_mulheres", .zeroOnInvalid),
   ("iec_ate_35_anos", .zeroOnInvalid),
   ("iec_mais_de_35_anos", .zeroOnInvalid),
   ("load_timestamp", .castTimestamp)]

/-- Evaluation of the `transform_icc_data` select list on one raw row
(a nullable-string cell per column name): any failing cast aborts the
whole materialization, as BigQuery aborts the query. -/
def transform_icc_row (row : String → Option String) :
    Except String (List (String × TVal)) :=
  iccRuleSet.mapM (fun p => (applyRule p.2 (row p.1)).map (fun v => (p.1, v)))

/-! ### Refined Transformer

Embedding of `transform_refined_data`.  A trusted table is a list of
(date, value) rows; dates are (year, month, day) triples.  `LAG(v)
OVER (ORDER BY mes)` is modelled by sorting on the date and threading
the previous value; `FORMAT_DATE('%Y-%m', mes)` becomes the
(year, month) pair; `JOIN ... USING (ano_mes)` is the inner join on
that pair; the final `ORDER BY ano_mes ASC` sorts by the pair. -/

/-- Date as (year, month, day). -/
abbrev DateT := Nat × Nat × Nat

/-- Embedding of `FORMAT_DATE('%Y-%m', mes)`: the year-month key. -/
def ym (d : DateT) : Nat × Nat := (d.1, d.2.1)

/-- Chronological order on dates. -/
def dateLe (a b : DateT) : Prop :=
  a.1 < b.1 ∨ (a.1 = b.1 ∧ (a.2.1 < b.2.1 ∨ (a.2.1 = b.2.1 ∧ a.2.2 ≤ b.2.2)))

instance : DecidableRel dateLe := fun a b => by
  unfold dateLe; exact inferInstance

/-- Order on trusted rows by their date, used for the `ORDER BY mes`
window ordering. -/
def trustedLe (a b : DateT × ℚ) : Prop := dateLe a.1 b.1

instance : DecidableRel trustedLe := fun a b => by
  unfold trustedLe; exact inferInstance

/-- Order on year-month keys, the `ORDER BY ano_mes ASC` of the final
select. -/
def kLe (p q : Nat × Nat) : Prop :=
  p.1 < q.1 ∨ (p.1 = q.1 ∧ p.2 ≤ q.2)

instance : DecidableRel kLe := fun p q => by
  unfold kLe; exact inferInstance

/-- Embedding of one series CTE body: after sorting by date, each row
becomes (year-month key, value, lagged previous value). -/
def lag1 : Option ℚ → List (DateT × ℚ) → List ((Nat × Nat) × ℚ × Option ℚ)
  | _, [] => []
  | prev, (d, v) :: rest => (ym d, v, prev) :: lag1 (some v) rest

/-- Boolean equality of year-month keys. -/
def keyEq (p q : Nat × Nat) : Bool :=
  p.1 == q.1 && p.2 == q.2

/-- Embedding of the inner `JOIN ... USING (ano_mes)`: every pair of
rows with equal keys, keyed once. -/
def joinUsing (xs ys : List ((Nat × Nat) × ℚ × Option ℚ)) :
    List ((Nat × Nat) × (ℚ × Option ℚ) × (ℚ × Option ℚ)) :=
  xs.flatMap (fun x => (ys.filter (fun y => keyEq y.1 x.1)).map
    (fun y => (x.1, x.2, y.2)))

/-- Embedding of the percentage-change `CASE` expression: NULL when the
lagged value is NULL or zero, otherwise `(current - previous) /
previous * 100`. -/
def pctChange (prev : Option ℚ) (cur : ℚ) : Option ℚ :=
  match prev with
  | none => none
  | some p => if p = 0 then none else some ((cur - p) / p * 100)

/-- Row of the refined table (the stamped load timestamp is outside the
per-row data model). -/
structure RefinedRow where
  ano_mes : Nat × Nat
  icc_indice : ℚ
  icc_variacao : Option ℚ
  icf_indice : ℚ
  icf_variacao : Option ℚ
  deriving DecidableEq, Repr

/-- Order on refined rows by year-month key. -/
def refLe (a b : RefinedRow) : Prop := kLe a.ano_mes b.ano_mes

instance : DecidableRel refLe := fun a b => by
  unfold refLe; exact inferInstance

instance : IsTotal RefinedRow refLe :=
  ⟨fun a b => by unfold refLe kLe; omega⟩

instance : IsTrans RefinedRow refLe :=
  ⟨fun a b c => by unfold refLe kLe; omega⟩

/-- Per-series projection used in the join: key, value, and percentage
change as computed inside that series alone. -/
def seriesOut (t : List (DateT × ℚ)) :
    List ((Nat × Nat) × ℚ × Option ℚ) :=
  (lag1 none (List.insertionSort trustedLe t)).map
    (fun e => (e.1, e.2.1, pctChange e.2.2 e.2.1))

/-- Construction of one refined row from one joined tuple, applying
the percentage-change `CASE` expression to each series. -/
def mkRefinedRow
    (t : (Nat × Nat) × (ℚ × Option ℚ) × (ℚ × Option ℚ)) : RefinedRow :=
  { ano_mes := t.1,
    icc_indice := t.2.1.1,
    icc_variacao := pctChange t.2.1.2 t.2.1.1,
    icf_indice := t.2.2.1,
    icf_variacao := pctChange t.2.2.2 t.2.2.1 }

/-- Embedding of the `transform_refined_data` query over the two
trusted tables: per-series lag CTEs, inner join on the year-month key,
percentage-change derivation, and the final ascending ordering. -/
def transform_refined_data (icc icf : List (DateT × ℚ)) :
    List RefinedRow :=
  List.insertionSort refLe
    ((joinUsing (lag1 none (List.insertionSort trustedLe icc))
      (lag1 none (List.insertionSort trustedLe icf))).map mkRefinedRow)

/-! ### Run Orchestrator

Embedding of the control flow of `main` after the driver has been
acquired: a `try` block runs six stages per index in a fixed order and
then the refined transform, and the `finally` block quits the driver on
every path.  Stage outcomes are abstracted by an oracle telling whether
each stage of each index succeeds; the event trace records every stage
attempt and the driver release. -/

/-- Stages of one index iteration of the `try` block of `main`. -/
inductive Stage
  | navigate
  | download
  | processFile
  | upload
  | transform
  | removeFile
  deriving DecidableEq, Repr

/-- Events of the orchestrator trace. -/
inductive Event
  | stageEv (i : Nat) (s : Stage)
  | refinedEv
  | quitEv
  deriving DecidableEq, Repr

/-- Stage order of one index iteration in `main`. -/
def stagesOrder : List Stage :=
  [.navigate, .download, .processFile, .upload, .transform, .removeFile]

/-- Runs the stages of index `i` in order, stopping at the first
failure.  Returns the attempted-stage trace and the success flag. -/
def runStages (oracle : Nat → Stage → Bool) (i : Nat) :
    List Stage → List Event × Bool
  | [] => ([], true)
  | s :: rest =>
    if oracle i s then
      let r := runStages oracle i rest
      (.stageEv i s :: r.1, r.2)
    else ([.stageEv i s], false)

/-- Runs the per-index loop of `main`: an exception in one index aborts
the remaining indices. -/
def runLoop (oracle : Nat → Stage → Bool) : List Nat → List Event × Bool
  | [] => ([], true)
  | i :: rest =>
    let r1 := runStages oracle i stagesOrder
    if r1.2 then
      let r2 := runLoop oracle rest
      (r1.1 ++ r2.1, r2.2)
    else r1

/-- Body of the `try` block: the loop, then the refined transform. -/
def runBody (oracle : Nat → Stage → Bool) (idxs : List Nat)
    (refinedOk : Bool) : List Event × Bool :=
  let r := runLoop oracle idxs
  if r.2 then (r.1 ++ [.refinedEv], refinedOk) else r

/-- Embedding of `try: ... finally: driver.quit()` in `main`: the quit
event is appended on every path, success or failure. -/
def mainRun (oracle : Nat → Stage → Bool) (idxs : List Nat)
    (refinedOk : Bool) : List Event × Bool :=
  let r := runBody oracle idxs refinedOk
  (r.1 ++ [.quitEv], r.2)

/-! ### Concrete sample data used by witnesses and counterexamples -/

/-- Decidable equality of `Except` results, for evaluating concrete
runs. -/
def exceptDecEq {ε α : Type} [DecidableEq ε] [DecidableEq α] :
    DecidableEq (Except ε α)
  | .error e, .error f =>
    if h : e = f then .isTrue (by rw [h])
    else .isFalse (fun he => by cases he; exact h rfl)
  | .error _, .ok _ => .isFalse (fun he => by cases he)
  | .ok _, .error _ => .isFalse (fun he => by cases he)
  | .ok x, .ok y =>
    if h : x = y then .isTrue (by rw [h])
    else .isFalse (fun he => by cases he; exact h rfl)

instance {ε α : Type} [DecidableEq ε] [DecidableEq α] :
    DecidableEq (Except ε α) := exceptDecEq

/-- Sample workbook: one sheet of a header row and two data rows. -/
def sampleWb : Workbook :=
  [("s", [["h1", "h2"], ["a", "b"], ["c", "d"]])]

/-- Sample raw row for the ICC transform: every cell valid except the
`icc_homens` cell, which holds a non-numeric string. -/
def sampleBadRow : String → Option String := fun c =>
  if c = "mes" then some "2024-01-01"
  else if c = "icc_homens" then some "abc"
  else if c = "load_timestamp" then some "2024-01-31 12:00:00"
  else some "100.0"

/-- Sample trusted ICC table: three consecutive periods. -/
def sharedIcc : List (DateT × ℚ) :=
  [((2024, 1, 1), 100), ((2024, 2, 1), 110), ((2024, 3, 1), 120)]

/-- Sample trusted ICF table: only the first two periods. -/
def sharedIcf : List (DateT × ℚ) :=
  [((2024, 1, 1), 50), ((2024, 2, 1), 75)]

end Pipeline

namespace Pipeline

/-! ### Helper lemmas about sanitization -/

/-- Underscore is a word character. -/
theorem isWordChar_underscore : isWordChar (Char.ofNat 95) = true := by
  decide

/-- Every character of a collapsed run list is a word character. -/
theorem isWordChar_of_mem_collapseRuns :
    ∀ (b : Bool) (l : List Char), ∀ c ∈ collapseRuns b l,
      isWordChar c = true := by
  intro b l
  induction l generalizing b with
  | nil => intro c hc; simp [collapseRuns] at hc
  | cons a as ih =>
    intro c hc
    by_cases ha : isWordChar a
    · simp only [collapseRuns, if_pos ha, List.mem_cons] at hc
      cases hc with
      | inl h => exact h ▸ ha
      | inr h => exact ih false c h
    · simp only [collapseRuns, if_neg ha] at hc
      cases b with
      | true => exact ih true c (by simpa using hc)
      | false =>
        simp only [Bool.false_eq_true, if_neg] at hc
        rcases List.mem_cons.mp hc with h | h
        · exact h ▸ isWordChar_underscore
        · exact ih true c h

/-- Conversion fact for the lower-casing shift on the upper-case
range. -/
theorem toNat_ofNat_shift (n : Nat) (h1 : 65 ≤ n) (h2 : n ≤ 90) :
    (Char.ofNat (n + 32)).toNat = n + 32 := by
  interval_cases n <;> decide

/-- Lower-casing preserves word characters. -/
theorem isWordChar_lowerChar (c : Char) (h : isWordChar c = true) :
    isWordChar (lowerChar c) = true := by
  unfold lowerChar
  by_cases hc : 65 ≤ c.toNat ∧ c.toNat ≤ 90
  · rw [if_pos hc]
    unfold isWordChar
    rw [toNat_ofNat_shift c.toNat hc.1 hc.2]
    simp only [Bool.or_eq_true, Bool.and_eq_true, decide_eq_true_eq]
    omega
  · rw [if_neg hc]; exact h

/-- Lower-casing is idempotent. -/
theorem lowerChar_idem (c : Char) :
    lowerChar (lowerChar c) = lowerChar c := by
  unfold lowerChar
  by_cases hc : 65 ≤ c.toNat ∧ c.toNat ≤ 90
  · rw [if_pos hc]
    have ht := toNat_ofNat_shift c.toNat hc.1 hc.2
    rw [if_neg (by omega)]
  · rw [if_neg hc, if_neg hc]

/-- Collapsing is the identity on lists of word characters. -/
theorem collapseRuns_of_word :
    ∀ (b : Bool) (l : List Char), (∀ c ∈ l, isWordChar c = true) →
      collapseRuns b l = l := by
  intro b l
  induction l generalizing b with
  | nil => intro _; rfl
  | cons a as ih =>
    intro h
    have ha : isWordChar a = true := h a (List.mem_cons_self a as)
    simp only [collapseRuns, if_pos ha]
    rw [ih false (fun c hc => h c (List.mem_cons_of_mem a hc))]

/-- Single-name sanitization is idempotent. -/
theorem sanitizeCol_idem (s : String) :
    sanitizeCol (sanitizeCol s) = sanitizeCol s := by
  unfold sanitizeCol
  have htl : (String.mk ((collapseRuns false s.toList).map lowerChar)).toList
      = (collapseRuns false s.toList).map lowerChar := rfl
  rw [htl]
  have hword : ∀ c ∈ (collapseRuns false s.toList).map lowerChar,
      isWordChar c = true := by
    intro c hc
    rcases List.mem_map.mp hc with ⟨d, hd, rfl⟩
    exact isWordChar_lowerChar d (isWordChar_of_mem_collapseRuns false _ d hd)
  rw [collapseRuns_of_word false _ hword]
  rw [List.map_map]
  congr 1
  apply List.map_congr_left
  intro d _
  exact lowerChar_idem d

/-- C4: column-name sanitization is idempotent — lower-casing and
collapsing every maximal non-word run to one underscore, applied twice,
equals one application; consequently the data-frame-level renaming is
idempotent as well. -/
theorem C4_sanitize_idempotent (s : String) (cols : List String) :
    sanitizeCol (sanitizeCol s) = sanitizeCol s ∧
    sanitize_column_names (sanitize_column_names cols) =
      sanitize_column_names cols := by
  refine ⟨sanitizeCol_idem s, ?_⟩
  unfold sanitize_column_names
  rw [List.map_map]
  apply List.map_congr_left
  intro x _
  exact sanitizeCol_idem x

/-! ### Percentage change -/

/-- C2: the percentage change of consecutive periods with previous
value `p` and current value `c` is `(c - p) / p * 100`; with no prior
period or a zero prior value it is NULL — not an error, not zero; in
particular previous 50 and current 75 give 50. -/
theorem C2_pct_change (p c : ℚ) :
    pctChange none c = none ∧
    pctChange (some 0) c = none ∧
    pctChange (some p) c =
      (if p = 0 then none else some ((c - p) / p * 100)) ∧
    pctChange (some 50) 75 = some 50 := by
  refine ⟨rfl, by simp [pctChange], rfl, ?_⟩
  show (if (50 : ℚ) = 0 then none else some ((75 - 50) / 50 * 100)) = some 50
  norm_num

/-! ### Trusted default-on-invalid policy -/

/-- C1 counterexample: a non-numeric source value in a
default-on-invalid column is not coerced to zero — the FLOAT64 cast,
and with it the whole ICC materialization, fails on it. -/
theorem C1_counterexample :
    applyRule Rule.zeroOnInvalid (some "abc") = .error castErrMsg ∧
    (transform_icc_row sampleBadRow).isOk = false := by
  constructor
  · rfl
  · decide

/-- C1 (amended): for the default-on-invalid columns of the ICC rule
set (the icc/icea/iec homens, mulheres, ate_35_anos and
mais_de_35_anos columns), a NULL cell or the not-a-number sentinel is
mapped to zero and the cast succeeds; any value the FLOAT64 cast does
not accept makes the transform fail instead. -/
theorem C1_zero_on_invalid (s : String) :
    applyRule .zeroOnInvalid none = .ok (.fv (.num 0)) ∧
    applyRule .zeroOnInvalid (some s) =
      (match parseNum s with
       | some .nan => .ok (.fv (.num 0))
       | some f => .ok (.fv f)
       | none => .error castErrMsg) ∧
    ("icc_homens", Rule.zeroOnInvalid) ∈ iccRuleSet ∧
    ("icc_mulheres", Rule.zeroOnInvalid) ∈ iccRuleSet ∧
    ("icc_ate_35_anos", Rule.zeroOnInvalid) ∈ iccRuleSet ∧
    ("icc_mais_de_35_anos", Rule.zeroOnInvalid) ∈ iccRuleSet ∧
    ("icea_homens", Rule.zeroOnInvalid) ∈ iccRuleSet ∧
    ("iec_homens", Rule.zeroOnInvalid) ∈ iccRuleSet := by
  refine ⟨rfl, ?_, by decide, by decide, by decide, by decide, by decide,
    by decide⟩
  have h1 : applyRule .zeroOnInvalid (some s) =
      (castFloat (some s)).map (fun v => .fv (zeroExpr v)) := rfl
  have h2 : castFloat (some s) =
      (match parseNum s with
       | some f => .ok (some f)
       | none => .error castErrMsg) := rfl
  rw [h1, h2]
  rcases hp : parseNum s with _ | f
  · rfl
  · cases f <;> rfl

/-! ### Normalizer skip decision -/

/-- C3 counterexample: two normalizer calls identical in every input
except the table identifier — one naming the icc kind, one the icf
kind — consume a different number of leading rows and return different
datasets, although neither call's descriptor carries any skip field. -/
theorem C3_counterexample :
    process_excel_file sampleWb "p.icc_raw" "s" ["c1", "c2"] 5 "t" ≠
      process_excel_file sampleWb "p.icf_raw" "s" ["c1", "c2"] 5 "t" := by
  decide

/-- C3 (amended): the skip decision is a hardcoded per-kind test inside
the normalizer, not a descriptor field — one extra leading row is
skipped exactly when the lowercased table identifier contains "icc";
two calls skip the same number of leading rows whenever their table
identifiers agree on that containment test, whatever the other inputs
are. -/
theorem C3_skip_hardcoded (wb : Workbook) (tid1 tid2 sheet ts : String)
    (cols : List String) (n : Nat)
    (h : strContains (strLower tid1) "icc" =
      strContains (strLower tid2) "icc") :
    skiprowsFor tid1 = skiprowsFor tid2 ∧
    process_excel_file wb tid1 sheet cols n ts =
      process_excel_file wb tid2 sheet cols n ts := by
  have hs : skiprowsFor tid1 = skiprowsFor tid2 := by
    unfold skiprowsFor
    rw [h]
  refine ⟨hs, ?_⟩
  unfold process_excel_file
  rw [hs]

/-- C3 witness: two identifiers of the same kind produce identical
skip behavior on a concrete workbook. -/
theorem C3_skip_hardcoded_witness :
    process_excel_file sampleWb "p.icc_raw" "s" ["c1", "c2"] 5 "t" =
      process_excel_file sampleWb "other.ICC_table" "s" ["c1", "c2"] 5 "t" :=
  (C3_skip_hardcoded sampleWb "p.icc_raw" "other.ICC_table" "s" "t"
    ["c1", "c2"] 5 (by decide)).2

/-! ### Download Watcher -/

/-- C6: the download watcher returns the path of a file that is new
with respect to the pre-trigger snapshot and carries the target
extension whenever one appears within the poll window; it never
returns a pre-existing file or a new file of a different extension;
and it raises the timeout error exactly when no such file ever
appears. -/
theorem C6_download_watcher (folder : String) (before : List String)
    (polls : List (List String)) :
    (∀ p, wait_for_file_download folder before polls = .ok p →
      ∃ f, (∃ poll ∈ polls, f ∈ poll) ∧ before.contains f = false ∧
        strEndsWith f ".xlsx" = true ∧ p = folder ++ "/" ++ f) ∧
    ((∃ poll ∈ polls, ∃ f ∈ poll, before.contains f = false ∧
        strEndsWith f ".xlsx" = true) →
      ∃ p, wait_for_file_download folder before polls = .ok p) ∧
    ((∀ poll ∈ polls, ∀ f ∈ poll, before.contains f = false →
        strEndsWith f ".xlsx" = false) →
      wait_for_file_download folder before polls = .error timeoutMsg) := by
  induction polls with
  | nil =>
    refine ⟨?_, ?_, ?_⟩
    · intro p hp
      exact absurd hp (by simp [wait_for_file_download])
    · rintro ⟨poll, hpoll, -⟩
      exact absurd hpoll (List.not_mem_nil poll)
    · intro _
      rfl
  | cons filesAfter rest ih =>
    rcases hfind : (List.filter (fun f => !before.contains f)
        filesAfter).find? (fun f => strEndsWith f ".xlsx") with _ | f
    · have hstep : wait_for_file_download folder before
          (filesAfter :: rest) = wait_for_file_download folder before rest := by
        simp only [wait_for_file_download, hfind]
      have hnone := List.find?_eq_none.mp hfind
      refine ⟨?_, ?_, ?_⟩
      · intro p hp
        rw [hstep] at hp
        rcases ih.1 p hp with ⟨f, ⟨poll, hpoll, hfp⟩, hb, hx, hpath⟩
        exact ⟨f, ⟨poll, List.mem_cons_of_mem _ hpoll, hfp⟩, hb, hx, hpath⟩
      · rintro ⟨poll, hpoll, f, hfp, hb, hx⟩
        rw [hstep]
        rcases List.mem_cons.mp hpoll with heq | hpoll2
        · exfalso
          subst heq
          have hmem : f ∈ List.filter (fun g => !before.contains g) poll :=
            List.mem_filter.mpr ⟨hfp, by simpa using hb⟩
          exact (hnone f hmem) hx
        · exact ih.2.1 ⟨poll, hpoll2, f, hfp, hb, hx⟩
      · intro hall
        rw [hstep]
        exact ih.2.2 (fun poll hpoll => hall poll (List.mem_cons_of_mem _ hpoll))
    · have hstep : wait_for_file_download folder before
          (filesAfter :: rest) = .ok (folder ++ "/" ++ f) := by
        simp only [wait_for_file_download, hfind]
      have hx : strEndsWith f ".xlsx" = true := by
        have hpa := List.find?_some hfind
        simpa using hpa
      have hmem := List.mem_of_find?_eq_some hfind
      have hfa : f ∈ filesAfter := (List.mem_filter.mp hmem).1
      have hb2 : before.contains f = false := by
        have hb := (List.mem_filter.mp hmem).2
        simpa using hb
      refine ⟨?_, fun _ => ⟨folder ++ "/" ++ f, hstep⟩, ?_⟩
      · intro p hp
        rw [hstep] at hp
        cases hp
        exact ⟨f, ⟨filesAfter, List.mem_cons_self _ _, hfa⟩, hb2, hx, rfl⟩
      · intro hall
        have hfalse := hall filesAfter (List.mem_cons_self _ _) f hfa hb2
        rw [hx] at hfalse
        exact absurd hfalse (by decide)

/-- C6 witness: a concrete trace where a new `.xlsx` file appears in
the second poll yields a successful result. -/
theorem C6_download_watcher_witness :
    ∃ p, wait_for_file_download "/downloads" ["old.txt"]
      [["old.txt"], ["old.txt", "icc.xlsx", "icc.part"]] = .ok p :=
  (C6_download_watcher "/downloads" ["old.txt"]
    [["old.txt"], ["old.txt", "icc.xlsx", "icc.part"]]).2.1
    ⟨["old.txt", "icc.xlsx", "icc.part"], by simp,
      "icc.xlsx", by simp, by decide, by decide⟩

/-! ### Layer Provisioner -/

/-- C7: dataset provisioning is idempotent create-if-absent — the first
call creates the dataset exactly when it is absent, the second call
with the same identifier is a no-op that performs no creation and never
fails, for both provisioning routines. -/
theorem C7_provision_idempotent (st : List String)
    (dataset_id dataset_name : String) :
    create_bigquery_dataset (create_bigquery_dataset st dataset_id).1
        dataset_id = ((create_bigquery_dataset st dataset_id).1, false) ∧
    ((create_bigquery_dataset st dataset_id).2 = true ↔
      st.contains dataset_id = false) ∧
    create_trusted_dataset (create_trusted_dataset st dataset_name).1
        dataset_name = ((create_trusted_dataset st dataset_name).1, false) := by
  refine ⟨?_, ?_, ?_⟩
  · by_cases h : dataset_id ∈ st
    · simp [create_bigquery_dataset, get_dataset, h]
    · simp [create_bigquery_dataset, get_dataset, create_dataset, h]
  · by_cases h : dataset_id ∈ st
    · simp [create_bigquery_dataset, get_dataset, h]
    · simp [create_bigquery_dataset, get_dataset, h]
  · by_cases h : PROJECT_ID ++ "." ++ dataset_name ∈ st
    · simp [create_trusted_dataset, get_dataset, h]
    · simp [create_trusted_dataset, get_dataset, create_dataset, h]

/-! ### Orchestrator resource lifecycle -/

/-- Stage traces never contain the driver-release event. -/
theorem quitEv_not_mem_runStages (oracle : Nat → Stage → Bool) (i : Nat) :
    ∀ stages : List Stage, Event.quitEv ∉ (runStages oracle i stages).1 := by
  intro stages
  induction stages with
  | nil => simp [runStages]
  | cons s rest ih =>
    by_cases h : oracle i s
    · simp only [runStages, if_pos h, List.mem_cons]
      rintro (hc | hc)
      · cases hc
      · exact ih hc
    · simp only [runStages, if_neg h, List.mem_cons]
      rintro (hc | hc)
      · cases hc
      · exact absurd hc (List.not_mem_nil _)

/-- Loop traces never contain the driver-release event. -/
theorem quitEv_not_mem_runLoop (oracle : Nat → Stage → Bool) :
    ∀ idxs : List Nat, Event.quitEv ∉ (runLoop oracle idxs).1 := by
  intro idxs
  induction idxs with
  | nil => simp [runLoop]
  | cons i rest ih =>
    by_cases h : (runStages oracle i stagesOrder).2
    · simp only [runLoop, if_pos h, List.mem_append]
      rintro (hc | hc)
      · exact quitEv_not_mem_runStages oracle i stagesOrder hc
      · exact ih hc
    · simp only [runLoop, if_neg h]
      exact quitEv_not_mem_runStages oracle i stagesOrder

/-- Try-block traces never contain the driver-release event. -/
theorem quitEv_not_mem_runBody (oracle : Nat → Stage → Bool)
    (idxs : List Nat) (refinedOk : Bool) :
    Event.quitEv ∉ (runBody oracle idxs refinedOk).1 := by
  unfold runBody
  by_cases h : (runLoop oracle idxs).2
  · simp only [if_pos h, List.mem_append]
    rintro (hc | hc)
    · exact quitEv_not_mem_runLoop oracle idxs hc
    · rcases List.mem_singleton.mp hc with hc2
      cases hc2
  · simp only [if_neg h]
    exact quitEv_not_mem_runLoop oracle idxs

/-- C9: once the driver has been acquired, the orchestrator releases it
exactly once at the end of the run on every execution path — the trace
of any run, successful or failed at any stage of any index or at the
refined transform, contains exactly one driver-release event, and it is
the final event. -/
theorem C9_driver_released_once (oracle : Nat → Stage → Bool)
    (idxs : List Nat) (refinedOk : Bool) :
    (mainRun oracle idxs refinedOk).1.count Event.quitEv = 1 ∧
    (mainRun oracle idxs refinedOk).1.getLast? = some Event.quitEv := by
  constructor
  · show ((runBody oracle idxs refinedOk).1 ++ [Event.quitEv]).count
      Event.quitEv = 1
    rw [List.count_append]
    rw [List.count_eq_zero.mpr (quitEv_not_mem_runBody oracle idxs refinedOk)]
    rfl
  · exact List.getLast?_concat _

/-! ### Normalizer shape checking -/

/-- Normalizer result characterization shared by the shape claims:
with the sheet found and the post-skip remainder split into a header
and data rows, the result is a column-count check followed by a capped
read. -/
theorem process_excel_file_eq (wb : Workbook) (tid sheet ts : String)
    (cols : List String) (n : Nat) (sheetRows : List (List String))
    (header : List String) (data : List (List String))
    (hfind : List.lookup sheet wb = some sheetRows)
    (hdrop : sheetRows.drop (skiprowsFor tid) = header :: data) :
    process_excel_file wb tid sheet cols n ts =
      (if header.length = cols.length then
        .ok { cols := sanitize_column_names cols ++ ["load_timestamp"],
              rows := (data.take n).map (fun r => r ++ [ts]) }
       else .error "Length mismatch between columns and data") := by
  simp only [process_excel_file, hfind, hdrop]

/-- C8 counterexample: a sheet with a header row plus two data rows,
a matching column list, and an expected-row parameter of one yields a
one-row dataset, not the two rows the sheet holds. -/
theorem C8_counterexample :
    (process_excel_file sampleWb "p.icf_raw" "s" ["c1", "c2"] 1 "t").map
      (fun fr => fr.rows.length) = .ok 1 := by
  decide

/-- C8 (amended): for an input sheet whose post-skip remainder is a
header row plus N data rows and a target column list of length K, the
normalizer fails with the malformed-input error when the sheet's
column count differs from K, and otherwise returns a dataset of
exactly min(N, expected-rows) rows carrying the sanitized column names
plus the appended load_timestamp column. -/
theorem C8_normalizer_shape (wb : Workbook) (tid sheet ts : String)
    (cols : List String) (n : Nat) (sheetRows : List (List String))
    (header : List String) (data : List (List String))
    (hfind : List.lookup sheet wb = some sheetRows)
    (hdrop : sheetRows.drop (skiprowsFor tid) = header :: data)
    (_hrect : ∀ r ∈ data, r.length = header.length) :
    (header.length ≠ cols.length →
      process_excel_file wb tid sheet cols n ts =
        .error "Length mismatch between columns and data") ∧
    (header.length = cols.length →
      process_excel_file wb tid sheet cols n ts =
        .ok { cols := sanitize_column_names cols ++ ["load_timestamp"],
              rows := (data.take n).map (fun r => r ++ [ts]) }) ∧
    (header.length = cols.length →
      ∀ fr, process_excel_file wb tid sheet cols n ts = .ok fr →
        fr.rows.length = min data.length n ∧
        fr.cols = sanitize_column_names cols ++ ["load_timestamp"]) := by
  have heq := process_excel_file_eq wb tid sheet ts cols n sheetRows header
    data hfind hdrop
  refine ⟨fun hne => by rw [heq, if_neg hne],
    fun he => by rw [heq, if_pos he], ?_⟩
  intro he fr hfr
  rw [heq, if_pos he] at hfr
  cases hfr
  constructor
  · simp [List.length_take, Nat.min_comm]
  · rfl

/-- C8 witness: a concrete two-row sheet with matching columns yields
the sanitized columns plus timestamp and both data rows. -/
theorem C8_normalizer_shape_witness :
    process_excel_file sampleWb "p.icf_raw" "s" ["Col A", "Col B"] 5 "T" =
      .ok { cols := ["col_a", "col_b", "load_timestamp"],
            rows := [["a", "b", "T"], ["c", "d", "T"]] } := by
  have h := (C8_normalizer_shape sampleWb "p.icf_raw" "s" "T"
    ["Col A", "Col B"] 5 [["h1", "h2"], ["a", "b"], ["c", "d"]]
    ["h1", "h2"] [["a", "b"], ["c", "d"]]
    (by decide) (by decide) (by decide)).2.1 (by decide)
  rw [h]
  decide

/-- C10: the expected row count acts only as an upper bound — a sheet
whose data-row count is below the descriptor's expected count yields a
dataset with exactly that smaller number of rows and no error; the
count is never validated as exact. -/
theorem C10_expected_rows_upper_bound (wb : Workbook)
    (tid sheet ts : String) (cols : List String) (n : Nat)
    (sheetRows : List (List String)) (header : List String)
    (data : List (List String))
    (hfind : List.lookup sheet wb = some sheetRows)
    (hdrop : sheetRows.drop (skiprowsFor tid) = header :: data)
    (hlen : header.length = cols.length)
    (hlt : data.length < n) :
    process_excel_file wb tid sheet cols n ts =
      .ok { cols := sanitize_column_names cols ++ ["load_timestamp"],
            rows := data.map (fun r => r ++ [ts]) } ∧
    ∀ fr, process_excel_file wb tid sheet cols n ts = .ok fr →
      fr.rows.length = data.length := by
  have heq := process_excel_file_eq wb tid sheet ts cols n sheetRows header
    data hfind hdrop
  have htake : data.take n = data := List.take_of_length_le (Nat.le_of_lt hlt)
  constructor
  · rw [heq, if_pos hlen, htake]
  · intro fr hfr
    rw [heq, if_pos hlen, htake] at hfr
    cases hfr
    simp [List.length_map]

/-! ### Refined join -/

/-- Year-month keys of a lagged series are the keys of its source
rows, whatever the threaded previous value is. -/
theorem exists_key_lag1 (k : Nat × Nat) :
    ∀ (prev : Option ℚ) (l : List (DateT × ℚ)),
      (∃ e ∈ lag1 prev l, e.1 = k) ↔ ∃ x ∈ l, ym x.1 = k := by
  intro prev l
  induction l generalizing prev with
  | nil => simp [lag1]
  | cons a as ih =>
    obtain ⟨d, v⟩ := a
    simp only [lag1, List.mem_cons]
    constructor
    · rintro ⟨e, he | he, hk⟩
      · subst he
        exact ⟨(d, v), Or.inl rfl, hk⟩
      · rcases (ih (some v)).mp ⟨e, he, hk⟩ with ⟨x, hx, hxk⟩
        exact ⟨x, Or.inr hx, hxk⟩
    · rintro ⟨x, hx | hx, hxk⟩
      · subst hx
        exact ⟨(ym d, v, prev), Or.inl rfl, hxk⟩
      · rcases (ih (some v)).mpr ⟨x, hx, hxk⟩ with ⟨e, he, hek⟩
        exact ⟨e, Or.inr he, hek⟩

/-- Sorting a trusted table does not change which keys occur in it. -/
theorem exists_key_sorted (t : List (DateT × ℚ)) (k : Nat × Nat) :
    (∃ x ∈ List.insertionSort trustedLe t, ym x.1 = k) ↔
      ∃ x ∈ t, ym x.1 = k := by
  constructor <;> rintro ⟨x, hx, hk⟩
  · exact ⟨x, (List.perm_insertionSort trustedLe t).mem_iff.mp hx, hk⟩
  · exact ⟨x, (List.perm_insertionSort trustedLe t).mem_iff.mpr hx, hk⟩

/-- Boolean key equality agrees with propositional equality. -/
theorem keyEq_iff (p q : Nat × Nat) : keyEq p q = true ↔ p = q := by
  cases p
  cases q
  simp [keyEq, Prod.ext_iff]

/-- Membership characterization of the inner join. -/
theorem mem_joinUsing {xs ys : List ((Nat × Nat) × ℚ × Option ℚ)}
    {r : (Nat × Nat) × (ℚ × Option ℚ) × (ℚ × Option ℚ)} :
    r ∈ joinUsing xs ys ↔
      ∃ x ∈ xs, ∃ y ∈ ys, y.1 = x.1 ∧ r = (x.1, x.2, y.2) := by
  unfold joinUsing
  rw [List.mem_flatMap]
  constructor
  · rintro ⟨x, hx, hr⟩
    rcases List.mem_map.mp hr with ⟨y, hy, hyr⟩
    rcases List.mem_filter.mp hy with ⟨hyy, hkey⟩
    exact ⟨x, hx, y, hyy, (keyEq_iff _ _).mp (by simpa using hkey), hyr.symm⟩
  · rintro ⟨x, hx, y, hy, hkey, rfl⟩
    exact ⟨x, hx, List.mem_map.mpr ⟨y, List.mem_filter.mpr
      ⟨hy, by simpa using (keyEq_iff _ _).mpr hkey⟩, rfl⟩⟩

/-- Membership characterization of the refined output. -/
theorem mem_transform_refined {icc icf : List (DateT × ℚ)}
    {r : RefinedRow} :
    r ∈ transform_refined_data icc icf ↔
      ∃ x ∈ lag1 none (List.insertionSort trustedLe icc),
        ∃ y ∈ lag1 none (List.insertionSort trustedLe icf),
          y.1 = x.1 ∧ r = mkRefinedRow (x.1, x.2, y.2) := by
  unfold transform_refined_data
  rw [(List.perm_insertionSort refLe _).mem_iff, List.mem_map]
  constructor
  · rintro ⟨t, ht, rfl⟩
    rcases mem_joinUsing.mp ht with ⟨x, hx, y, hy, hyx, rfl⟩
    exact ⟨x, hx, y, hy, hyx, rfl⟩
  · rintro ⟨x, hx, y, hy, hyx, rfl⟩
    exact ⟨(x.1, x.2, y.2), mem_joinUsing.mpr ⟨x, hx, y, hy, hyx, rfl⟩, rfl⟩

/-- C5: the refined output holds exactly the periods present in both
trusted tables (inner-join semantics on the year-month key); every
output row's per-series value and percentage change come from the
series' own lagged table computed before the join; the output is
ordered ascending by period; and on the concrete tables sharing
2024-01 and 2024-02 with one extra 2024-03 row on one side, the output
holds exactly 2024-01 and 2024-02. -/
theorem C5_refined_inner_join (icc icf : List (DateT × ℚ)) :
    (∀ k : Nat × Nat,
      (∃ r ∈ transform_refined_data icc icf, r.ano_mes = k) ↔
        ((∃ x ∈ icc, ym x.1 = k) ∧ (∃ y ∈ icf, ym y.1 = k))) ∧
    (∀ r ∈ transform_refined_data icc icf,
      (r.ano_mes, r.icc_indice, r.icc_variacao) ∈ seriesOut icc ∧
      (r.ano_mes, r.icf_indice, r.icf_variacao) ∈ seriesOut icf) ∧
    List.Sorted refLe (transform_refined_data icc icf) ∧
    (transform_refined_data sharedIcc sharedIcf).map
      (fun r => r.ano_mes) = [(2024, 1), (2024, 2)] := by
  refine ⟨?_, ?_, ?_, ?_⟩
  · intro k
    constructor
    · rintro ⟨r, hr, hk⟩
      rcases mem_transform_refined.mp hr with ⟨x, hx, y, hy, hyx, rfl⟩
      have hxk : x.1 = k := hk
      constructor
      · exact (exists_key_sorted icc k).mp
          ((exists_key_lag1 k none _).mp ⟨x, hx, hxk⟩)
      · exact (exists_key_sorted icf k).mp
          ((exists_key_lag1 k none _).mp ⟨y, hy, hyx.trans hxk⟩)
    · rintro ⟨hi, hf⟩
      obtain ⟨x, hx, hxk⟩ :=
        (exists_key_lag1 k none _).mpr ((exists_key_sorted icc k).mpr hi)
      obtain ⟨y, hy, hyk⟩ :=
        (exists_key_lag1 k none _).mpr ((exists_key_sorted icf k).mpr hf)
      exact ⟨mkRefinedRow (x.1, x.2, y.2), mem_transform_refined.mpr
        ⟨x, hx, y, hy, hyk.trans hxk.symm, rfl⟩, hxk⟩
  · intro r hr
    rcases mem_transform_refined.mp hr with ⟨x, hx, y, hy, hyx, rfl⟩
    constructor
    · unfold seriesOut
      exact List.mem_map.mpr ⟨x, hx, rfl⟩
    · unfold seriesOut
      apply List.mem_map.mpr
      exact ⟨y, hy, by simp [mkRefinedRow, hyx]⟩
  · exact List.sorted_insertionSort refLe _
  · decide

/-- C5 witness: on the concrete tables, the shared period 2024-02
appears in the refined output because both trusted tables hold it. -/
theorem C5_refined_inner_join_witness :
    ∃ r ∈ transform_refined_data sharedIcc sharedIcf,
      r.ano_mes = (2024, 2) :=
  ((C5_refined_inner_join sharedIcc sharedIcf).1 (2024, 2)).mpr
    ⟨⟨((2024, 2, 1), 110),
        List.mem_cons_of_mem _ (List.mem_cons_self _ _), rfl⟩,
      ⟨((2024, 2, 1), 75),
        List.mem_cons_of_mem _ (List.mem_cons_self _ _), rfl⟩⟩

/-- C10 witness: a two-row sheet read with an expected count of seven
returns exactly the two rows. -/
theorem C10_expected_rows_upper_bound_witness :
    process_excel_file sampleWb "p.icf_raw" "s" ["M One", "M Two"] 7 "TS" =
      .ok { cols := ["m_one", "m_two", "load_timestamp"],
            rows := [["a", "b", "TS"], ["c", "d", "TS"]] } := by
  have h := (C10_expected_rows_upper_bound sampleWb "p.icf_raw" "s" "TS"
    ["M One", "M Two"] 7 [["h1", "h2"], ["a", "b"], ["c", "d"]]
    ["h1", "h2"] [["a", "b"], ["c", "d"]]
    (by decide) (by decide) (by decide) (by decide)).1
  rw [h]
  decide

end Pipeline
